import Mathlib

/-!
Verification development for the Journal.Vet multi-tenant workspace core:
tenant authorization (RLS policies), invite lifecycle (accept / decline /
revoke SQL functions), and the journal processing coordinator (save
recording, resummarize, delete journal handlers).

The definitions below are a shallow embedding of the repository's source:
the plpgsql functions of migrations 0001/0002/0004/0011 and the dashboard
handlers (handleSaveRecording, handleResummarize, handleDeleteJournal).
SQL three-valued logic over nullable columns is modelled explicitly with
`Option Bool`, because `revoke_invite` compares the nullable `accepted_by`
column and plpgsql treats a NULL condition in IF as false.
-/

namespace JournalVet

/-! ## SQL three-valued logic helpers -/

/-- SQL OR over nullable booleans: true wins, both-false is false, else NULL. -/
def sqlOr : Option Bool → Option Bool → Option Bool
  | some true, _ => some true
  | _, some true => some true
  | some false, some false => some false
  | _, _ => none

/-- SQL NOT over nullable booleans. -/
def sqlNot : Option Bool → Option Bool
  | some b => some (!b)
  | none => none

/-- SQL equality of two nullable ids: comparing with NULL yields NULL. -/
def sqlEqNat : Option Nat → Option Nat → Option Bool
  | some a, some b => some (a == b)
  | _, _ => none

/-- plpgsql IF treats a NULL condition as false: the branch runs only on true. -/
def condTrue (c : Option Bool) : Bool := c == some true

/-- Lower-casing used for the email comparisons (`lower(...)` in SQL). -/
def lowerStr (s : String) : String := ⟨s.data.map Char.toLower⟩

/-! ## Data model (tables of migrations 0001/0002) -/

/-- Row of `public.workspaces`: id, nullable owner_id (on delete set null), name. -/
structure Workspace where
  id : Nat
  owner_id : Option Nat
  name : String
deriving DecidableEq

/-- Row of `public.workspace_members`, identified by its unique (workspace_id, user_id) pair. -/
structure WorkspaceMember where
  workspace_id : Nat
  user_id : Nat
deriving DecidableEq

/-- Row of `public.invites` (0002 consolidated schema, with `accepted_by` of 0004). -/
structure Invite where
  id : Nat
  workspace_id : Nat
  email : String
  status : String
  token : String
  accepted_by : Option Nat
  expires_at : Option Nat
deriving DecidableEq

/-- Row of `public.journals` (columns relevant to the coordinator). -/
structure Journal where
  id : Nat
  workspace_id : Nat
  created_by : Option Nat
  status : String
  language_code : Option String
  template_id : Option Nat
  audio_path : String
  transcript : Option String
  summary : Option String
  updated_at : Nat
deriving DecidableEq

/-- The entity store: the four tables the claims are about. -/
structure DB where
  workspaces : List Workspace
  members : List WorkspaceMember
  invites : List Invite
  journals : List Journal
deriving DecidableEq

/-! ## Authorization helpers (`is_workspace_member`, `is_core_member`) -/

/-- Function `public.is_workspace_member`: a membership row for (workspace, auth.uid()) exists. -/
def isWorkspaceMember (db : DB) (uid wid : Nat) : Bool :=
  db.members.any (fun m => m.workspace_id == wid && m.user_id == uid)

/-- Function `public.is_core_member`: the workspace row exists and its owner_id equals auth.uid(). -/
def isCoreMember (db : DB) (uid wid : Nat) : Bool :=
  db.workspaces.any (fun w => w.id == wid && w.owner_id == some uid)

/-- Direct SQL operations on a table, as constrained by RLS policies. -/
inductive SqlOp
  | select
  | insert
  | update
  | delete
deriving DecidableEq

/-- RLS policy `invites_core_only` (`for all using is_core_member with check is_core_member`):
every direct operation on an invite row requires core membership of its workspace. -/
def invitesPolicyAllows (db : DB) (uid : Nat) (_op : SqlOp) (i : Invite) : Bool :=
  isCoreMember db uid i.workspace_id

/-- RLS policy "Cannot delete owner membership": a membership row may be deleted only
by a core member, and never when the row's user is the workspace owner. -/
def canDeleteMemberRow (db : DB) (uid : Nat) (m : WorkspaceMember) : Bool :=
  isCoreMember db uid m.workspace_id &&
    !(db.workspaces.any (fun w => w.id == m.workspace_id && w.owner_id == some m.user_id))

/-- A direct `delete from workspace_members` for (wid, target) issued by `uid`:
RLS silently keeps every row whose USING clause fails. -/
def deleteMembershipAs (db : DB) (uid wid target : Nat) : DB :=
  { db with members := db.members.filter (fun m =>
      !(m.workspace_id == wid && m.user_id == target && canDeleteMemberRow db uid m)) }

/-! ## Signup bootstrap (`handle_new_user`) -/

/-- Function `public.handle_new_user`: on account creation insert the default workspace
(id = owner_id = the new user id) and its owner membership row. -/
def handleNewUser (db : DB) (uid : Nat) (wname : String) : DB :=
  { db with
      workspaces := db.workspaces ++ [⟨uid, some uid, wname⟩],
      members := db.members ++ [⟨uid, uid⟩] }

/-! ## Invite lifecycle (`accept_invite`, `decline_invite`, `revoke_invite` of 0004/0002) -/

/-- The WHERE clause of `accept_invite`'s SELECT ... FOR UPDATE:
token match, status pending, and expires_at null or strictly in the future. -/
def inviteAcceptable (now : Nat) (tok : String) (i : Invite) : Bool :=
  i.token == tok && i.status == "pending" &&
    (match i.expires_at with
     | none => true
     | some t => now < t)

/-- The row locked by `accept_invite` (token is unique in the schema). -/
def findAcceptableInvite (db : DB) (now : Nat) (tok : String) : Option Invite :=
  db.invites.find? (inviteAcceptable now tok)

/-- SQL `insert into workspace_members ... on conflict (workspace_id, user_id) do nothing`. -/
def upsertMember (ms : List WorkspaceMember) (wid uid : Nat) : List WorkspaceMember :=
  if ms.any (fun m => m.workspace_id == wid && m.user_id == uid) then ms
  else ms ++ [⟨wid, uid⟩]

/-- SQL `update invites set status = accepted, accepted_by = auth.uid() where id = ...`. -/
def markInviteAccepted (is : List Invite) (iid uid : Nat) : List Invite :=
  is.map (fun i => if i.id == iid then { i with status := "accepted", accepted_by := some uid } else i)

/-- Function `public.accept_invite` (0004 version): returns the post state and the raised
error message, if any. The SELECT + check + upsert + UPDATE are one atomic unit
(the invite row is locked FOR UPDATE for the whole function body). -/
def acceptInvite (db : DB) (now uid : Nat) (tok : String) : DB × Option String :=
  match findAcceptableInvite db now tok with
  | none => (db, some ("Invite is invalid or expired"))
  | some i =>
      ({ db with
          members := upsertMember db.members i.workspace_id uid,
          invites := markInviteAccepted db.invites i.id uid }, none)

/-- The WHERE clause of `decline_invite`: id match, pending, the caller's JWT email
matches the invite email (lower-cased), and not expired. -/
def inviteDeclinable (now iid : Nat) (jwtEmail : String) (i : Invite) : Bool :=
  i.id == iid && i.status == "pending" && lowerStr i.email == lowerStr jwtEmail &&
    (match i.expires_at with
     | none => true
     | some t => now < t)

/-- Function `public.decline_invite`: unlike accept, it requires the caller's email to match. -/
def declineInvite (db : DB) (now : Nat) (jwtEmail : String) (iid : Nat) : DB × Option String :=
  match db.invites.find? (inviteDeclinable now iid jwtEmail) with
  | none => (db, some ("Invite is invalid or expired"))
  | some i =>
      ({ db with invites := db.invites.map (fun j =>
          if j.id == i.id then { j with status := "declined" } else j) }, none)

/-- SQL `update invites set status = revoked where id = ...`. -/
def markInviteRevoked (is : List Invite) (iid : Nat) : List Invite :=
  is.map (fun j => if j.id == iid then { j with status := "revoked" } else j)

/-- Function `public.revoke_invite` (0004): joins the invite with its workspace, computes
`is_invitee := accepted_by = auth.uid()` and `can_manage := is_invitee or is_core_member`
under SQL three-valued logic, raises on `not can_manage` only when that is TRUE
(NULL falls through), no-ops on an already revoked invite, guards the owner
membership, deletes the accepted member's row, and marks the invite revoked. -/
def revokeInvite (db : DB) (uid iid : Nat) : DB × Option String :=
  match db.invites.find? (fun i => i.id == iid) with
  | none => (db, some ("Invite not found"))
  | some i =>
      match db.workspaces.find? (fun w => w.id == i.workspace_id) with
      | none => (db, some ("Invite not found"))
      | some w =>
          -- is_invitee := accepted_by = auth.uid(); can_manage := is_invitee or is_core_member
          if condTrue (sqlNot (sqlOr (sqlEqNat i.accepted_by (some uid))
              (some (isCoreMember db uid i.workspace_id)))) then
            (db, some ("You do not have permission to revoke this invite."))
          else if i.status == "revoked" then
            (db, none)
          else
            match i.accepted_by with
            | some a =>
                if condTrue (sqlEqNat (some a) w.owner_id) then
                  (db, some ("Cannot revoke the workspace owner."))
                else
                  ({ db with
                      members := db.members.filter (fun m =>
                        !(m.workspace_id == i.workspace_id && m.user_id == a)),
                      invites := markInviteRevoked db.invites i.id }, none)
            | none =>
                ({ db with invites := markInviteRevoked db.invites i.id }, none)

/-- A row returned by `get_pending_invites_for_user` (0004 version). -/
structure PendingInviteRow where
  id : Nat
  workspace_id : Nat
  status : String
  token : Option String
deriving DecidableEq

/-- Function `public.get_pending_invites_for_user` (0004, security definer): pending
unexpired invites whose email matches the caller's JWT email, plus accepted
invites the caller accepted; the token is exposed only while pending. -/
def getPendingInvitesForUser (db : DB) (now uid : Nat) (jwtEmail : String) : List PendingInviteRow :=
  db.invites.filterMap (fun i =>
    match db.workspaces.find? (fun w => w.id == i.workspace_id) with
    | none => none
    | some _ =>
        if (i.status == "pending" &&
              (match i.expires_at with
               | none => true
               | some t => now < t) &&
              lowerStr i.email == lowerStr jwtEmail)
            || (i.status == "accepted" && i.accepted_by == some uid) then
          some ⟨i.id, i.workspace_id, i.status,
                if i.status == "pending" then some i.token else none⟩
        else none)

/-! ## Journal schema constraints (migrations 0001 / 0002) -/

/-- The `journals.status` check constraint of migration 0001:
`check (status in (draft, processed, error))` — note it admits `draft`
and does not admit `processing`. The 0002 consolidated schema drops the
check entirely and keeps `default draft`. -/
def journalStatusCheck0001 (s : String) : Bool :=
  s == "draft" || s == "processed" || s == "error"

/-- The `journals.status` column default of both schema variants. -/
def journalDefaultStatus : String := "draft"

/-- Modelled from the spec's words (section 3): the claimed invariant that every
stored journal status is one of processing, processed, error. Kept separate so
it can be compared against the schema's own `journalStatusCheck0001`. -/
def specJournalStatusOk (s : String) : Bool :=
  s == "processing" || s == "processed" || s == "error"

/-! ## Journal Processing Coordinator (dashboard handlers) -/

/-- Result of a fetch to a pipeline webhook, as distinguished by the handlers:
2xx, non-2xx response body, or a thrown network error. -/
inductive DispatchResult
  | ok
  | non2xx (detail : String)
  | networkError (msg : String)
deriving DecidableEq

/-- External outcomes handleSaveRecording depends on: audio upload, row insert,
and the transcription webhook dispatch. -/
structure SaveEnv where
  uploadOk : Bool
  insertOk : Bool
  dispatch : DispatchResult
deriving DecidableEq

/-- The caller-chosen fields of the inserted journal row. -/
structure SaveParams where
  journalId : Nat
  workspaceId : Nat
  userId : Nat
  languageCode : Option String
  templateId : Option Nat
  audioPath : String
deriving DecidableEq

/-- The row handleSaveRecording inserts: status is the literal "processing",
transcript and summary start null. -/
def newJournalRow (p : SaveParams) (now : Nat) : Journal :=
  { id := p.journalId, workspace_id := p.workspaceId, created_by := some p.userId,
    status := "processing", language_code := p.languageCode, template_id := p.templateId,
    audio_path := p.audioPath, transcript := none, summary := none, updated_at := now }

/-- Outcome of a coordinator handler: post state, surfaced error message,
and the journal id posted to the pipeline webhook (if the fetch was attempted). -/
structure SaveResult where
  db : DB
  errorMsg : Option String
  dispatchedJournal : Option Nat
deriving DecidableEq

/-- Handler `handleSaveRecording` (part_010): upload, insert the row with status
"processing", then POST the journal id to the transcription webhook. A network
error or non-2xx response raises after `journalCreated = true`, so the catch
block surfaces the message but never deletes the inserted row. -/
def saveRecording (db : DB) (env : SaveEnv) (p : SaveParams) (now : Nat) : SaveResult :=
  if !env.uploadOk then ⟨db, some ("upload failed"), none⟩
  else if !env.insertOk then ⟨db, some ("Failed to create journal entry."), none⟩
  else
    let db1 : DB := { db with journals := db.journals ++ [newJournalRow p now] }
    match env.dispatch with
    | .ok => ⟨db1, none, some p.journalId⟩
    | .networkError m =>
        ⟨db1, some ("Failed to trigger journal processing: " ++ m), some p.journalId⟩
    | .non2xx d =>
        ⟨db1, some ("Failed to trigger journal processing: " ++ d), some p.journalId⟩

/-- The JSON body handleResummarize posts to the re-summarization webhook. -/
structure ResumRequest where
  journal_id : Nat
  template_id : Option Nat
  language_code : Option String
deriving DecidableEq

/-- Outcome of handleResummarize: post state, surfaced error, webhook body. -/
structure ResumResult where
  db : DB
  errorMsg : Option String
  request : Option ResumRequest
deriving DecidableEq

/-- Handler `handleResummarize` (part_010): `update journals set template_id, language_code
where id = ...` (the `journals_set_updated_at` trigger refreshes updated_at),
then POST the journal id plus the new template/language to the re-summarization
webhook. No other column is written: status, transcript and summary are left as
they were. -/
def resummarize (db : DB) (now jid : Nat) (tpl : Option Nat) (lang : Option String)
    (updateOk : Bool) (dispatch : DispatchResult) : ResumResult :=
  if !updateOk then ⟨db, some ("update failed"), none⟩
  else
    let db1 : DB := { db with journals := db.journals.map (fun j =>
      if j.id == jid then { j with template_id := tpl, language_code := lang, updated_at := now }
      else j) }
    match dispatch with
    | .ok => ⟨db1, none, some ⟨jid, tpl, lang⟩⟩
    | .networkError m =>
        ⟨db1, some ("Failed to trigger re-summarization: " ++ m), some ⟨jid, tpl, lang⟩⟩
    | .non2xx d =>
        ⟨db1, some ("Failed to trigger re-summarization: " ++ d), some ⟨jid, tpl, lang⟩⟩

/-- SQL `delete from journals where id = ...`. -/
def deleteJournalRow (db : DB) (jid : Nat) : DB :=
  { db with journals := db.journals.filter (fun j => !(j.id == jid)) }

/-- Outcome of handleDeleteJournal: post state, surfaced error, console log. -/
structure DeleteResult where
  db : DB
  errorMsg : Option String
  logMsg : Option String
deriving DecidableEq

/-- Handler `handleDeleteJournal` (part_010): delete the row; only then, if the journal
had an audio path, POST it to the cleanup webhook inside its own try/catch whose
failure is written to console.error and never rethrown — the success path
(row removed, "Journal deleted.") is reached for every webhook outcome. -/
def handleDeleteJournal (db : DB) (jid : Nat) (deleteOk : Bool) (audioPath : Option String)
    (webhook : DispatchResult) : DeleteResult :=
  if !deleteOk then ⟨db, some ("delete failed"), none⟩
  else
    let db1 := deleteJournalRow db jid
    match audioPath with
    | none => ⟨db1, none, none⟩
    | some _ =>
        match webhook with
        | .ok => ⟨db1, none, none⟩
        | .non2xx d => ⟨db1, none, some ("Failed to trigger audio cleanup webhook: " ++ d)⟩
        | .networkError m => ⟨db1, none, some ("Failed to trigger audio cleanup webhook: " ++ m)⟩

/-- Function `public.delete_journal_audio` (0011): AFTER DELETE trigger. Normalizes the
stored audio path into a storage object key, attempts `storage.delete`, and its
exception handler returns OLD after a `pg_notify` — so the first component
(does the row deletion proceed) is true on every path. The URL-prefix
regexp_replace of the source is irrelevant to the claims and is not modelled;
the `audio/` prefix strip, query-string strip, and leading-slash strip are. -/
def deleteJournalAudioTrigger (audioPath : Option String) (storageOk : Bool) :
    Bool × Option String :=
  let key0 := audioPath.getD ("")
  if key0 == "" then (true, none)
  else
    let key1 := if key0.startsWith ("audio/") then key0.drop 6 else key0
    let key2 := key1.takeWhile (fun c => c != '?')
    let key := if key2.startsWith ("/") then key2.drop 1 else key2
    if key == "" then (true, none)
    else if storageOk then (true, none)
    else (true, some ("journal_audio_delete_failed path=" ++ key))

/-! ## Derived notions used by the claims -/

/-- Number of membership rows for a given (workspace, user) pair. -/
def memberRowCount (db : DB) (wid uid : Nat) : Nat :=
  db.members.countP (fun m => m.workspace_id == wid && m.user_id == uid)

/-- The owner-membership invariant for one workspace row: if the workspace has
an owner, exactly one membership row pairs the workspace with its owner. -/
def ownerRowOk (db : DB) (w : Workspace) : Bool :=
  match w.owner_id with
  | none => true
  | some o => memberRowCount db w.id o == 1

/-- Spec section 8: for all workspaces, exactly one membership row satisfies
`account_id == workspace.owner_id`. -/
def OwnerRowInvariant (db : DB) : Prop :=
  ∀ w ∈ db.workspaces, ownerRowOk db w = true

instance (db : DB) : Decidable (OwnerRowInvariant db) :=
  List.decidableBAll _ db.workspaces

/-! ## Concrete fixtures used by counterexamples and witnesses -/

/-- Workspace 1 owned by account 10. -/
def exWorkspace : Workspace := ⟨1, some 10, "Ten Workspace"⟩

/-- A processed journal with stored transcript and summary. -/
def exJournal : Journal :=
  { id := 1, workspace_id := 1, created_by := some 10, status := "processed",
    language_code := some ("en"), template_id := some 2, audio_path := "audio/1/a.webm",
    transcript := some ("transcript text"), summary := some ("summary text"), updated_at := 3 }

/-- An invite already accepted by account 20. -/
def exInviteAccepted : Invite := ⟨5, 1, "b@example.com", "accepted", "tok5", some 20, none⟩

/-- A pending, non-expiring invite nobody has accepted. -/
def exInvitePending : Invite := ⟨6, 1, "c@example.com", "pending", "tok6", none, none⟩

/-- A small store: workspace 1 (owner 10, member 20 via invite 5), one pending
invite, one processed journal. -/
def exDB : DB :=
  { workspaces := [exWorkspace],
    members := [⟨1, 10⟩, ⟨1, 20⟩],
    invites := [exInviteAccepted, exInvitePending],
    journals := [exJournal] }

/-- Parameters of a fresh journal saved into workspace 1 by account 10. -/
def exSaveParams : SaveParams := ⟨2, 1, 10, some ("en"), some 2, "audio/1/b.webm"⟩

end JournalVet

namespace JournalVet

/-! ## Shared list lemmas -/

/-- Updating exactly the rows with a given key commutes with looking that key up. -/
theorem find?_map_update {α : Type} (key : α → Nat) (k : Nat) (g : α → α)
    (hg : ∀ x, key (g x) = key x) (l : List α) :
    (l.map (fun x => if key x == k then g x else x)).find? (fun x => key x == k)
      = (l.find? (fun x => key x == k)).map g := by
  induction l with
  | nil => rfl
  | cons a l ih =>
      simp only [List.map_cons]
      by_cases h : key a = k
      · rw [if_pos (by simp [h]), List.find?_cons_of_pos _ (by simp [hg, h]),
          List.find?_cons_of_pos _ (by simp [h])]
        rfl
      · rw [if_neg (by simp [h]), List.find?_cons_of_neg _ (by simp [h]),
          List.find?_cons_of_neg _ (by simp [h]), ih]

/-- A filter that keeps every row satisfying `p` does not change the `p`-count. -/
theorem countP_filter_keep {α : Type} (p q : α → Bool) (l : List α)
    (h : ∀ a ∈ l, p a = true → q a = true) :
    (l.filter q).countP p = l.countP p := by
  rw [List.countP_filter]
  induction l with
  | nil => rfl
  | cons a l ih =>
      rw [List.countP_cons, List.countP_cons,
        ih (fun x hx hp => h x (List.mem_cons_of_mem a hx) hp)]
      by_cases hp : p a = true
      · simp [hp, h a (List.mem_cons_self a l) hp]
      · simp [Bool.eq_false_iff.mpr hp]

/-- With pairwise distinct keys, looking up an element's key finds that element. -/
theorem find?_key_of_mem_nodup {α : Type} (key : α → Nat) (l : List α)
    (hnd : (l.map key).Nodup) (x : α) (hx : x ∈ l) :
    l.find? (fun y => key y == key x) = some x := by
  induction l with
  | nil => cases hx
  | cons a l ih =>
      rw [List.map_cons, List.nodup_cons] at hnd
      rcases List.mem_cons.mp hx with rfl | hx'
      · simp [List.find?_cons]
      · have hne : ¬ key a = key x := by
          intro he
          exact hnd.1 (he ▸ List.mem_map_of_mem key hx')
        simp [List.find?_cons, hne, ih hnd.2 hx']

/-- Lookup skips a block where the predicate never holds. -/
theorem find?_append_right {α : Type} (p : α → Bool) (l₁ l₂ : List α)
    (h : ∀ x ∈ l₁, p x = false) : (l₁ ++ l₂).find? p = l₂.find? p := by
  induction l₁ with
  | nil => rfl
  | cons a l ih =>
      simp [List.find?_cons, h a (List.mem_cons_self a l),
        ih (fun x hx => h x (List.mem_cons_of_mem a hx))]

/-- After filtering out every `p`-row, no `p`-row remains. -/
theorem any_filter_not {α : Type} (p : α → Bool) (l : List α) :
    (l.filter (fun x => !(p x))).any p = false := by
  rw [List.any_eq_false]
  intro x hx
  have hkeep := List.of_mem_filter hx
  simp only [Bool.not_eq_true'] at hkeep
  simp [hkeep]

/-! ## Behaviour lemmas about the operations -/

/-- The upserted (workspace, user) pair is present afterwards. -/
theorem upsertMember_mem (ms : List WorkspaceMember) (wid uid : Nat) :
    (upsertMember ms wid uid).any (fun m => m.workspace_id == wid && m.user_id == uid) = true := by
  unfold upsertMember
  by_cases h : ms.any (fun m => m.workspace_id == wid && m.user_id == uid) = true
  · rw [if_pos h]; exact h
  · rw [if_neg h, List.any_append]
    simp

/-- Failed acceptance: when no pending, unexpired invite carries the token,
accept_invite raises and leaves the store untouched. -/
theorem acceptInvite_fail (db : DB) (now uid : Nat) (tok : String)
    (h : findAcceptableInvite db now tok = none) :
    acceptInvite db now uid tok = (db, some ("Invite is invalid or expired")) := by
  unfold acceptInvite
  rw [h]

/-- Successful acceptance: no error, membership upserted and present, the invite
marked accepted with the actor recorded, for any caller identity. -/
theorem acceptInvite_success (db : DB) (now uid : Nat) (tok : String) (i : Invite)
    (hi : findAcceptableInvite db now tok = some i)
    (hnd : (db.invites.map Invite.id).Nodup) :
    (acceptInvite db now uid tok).2 = none ∧
    (acceptInvite db now uid tok).1.members = upsertMember db.members i.workspace_id uid ∧
    isWorkspaceMember (acceptInvite db now uid tok).1 uid i.workspace_id = true ∧
    (acceptInvite db now uid tok).1.invites.find? (fun x => x.id == i.id)
      = some { i with status := "accepted", accepted_by := some uid } := by
  have hmem : i ∈ db.invites := List.mem_of_find?_eq_some hi
  have hfind : db.invites.find? (fun y => y.id == i.id) = some i :=
    find?_key_of_mem_nodup Invite.id db.invites hnd i hmem
  unfold acceptInvite
  rw [hi]
  refine ⟨rfl, rfl, upsertMember_mem db.members i.workspace_id uid, ?_⟩
  show (markInviteAccepted db.invites i.id uid).find? (fun x => x.id == i.id) = _
  unfold markInviteAccepted
  rw [find?_map_update Invite.id i.id
    (fun x => { x with status := "accepted", accepted_by := some uid }) (fun x => rfl)
    db.invites, hfind]
  rfl

end JournalVet

namespace JournalVet

/-! ## Claim theorems -/

/-- C1 (amended): for any stored journal, resummarize rewrites exactly the
stored template and language (the update trigger refreshing updated_at) and
posts the journal id with the new parameters to the re-summarization webhook;
it leaves the status unchanged — it does not set it back to processing — and
clears neither the stored transcript nor the summary. -/
theorem C1_resummarize_amended (db : DB) (now jid : Nat) (tpl : Option Nat)
    (lang : Option String) (d : DispatchResult) (j : Journal)
    (hj : db.journals.find? (fun x => x.id == jid) = some j) :
    (resummarize db now jid tpl lang true d).db.journals.find? (fun x => x.id == jid)
      = some { j with template_id := tpl, language_code := lang, updated_at := now } ∧
    (resummarize db now jid tpl lang true d).request = some ⟨jid, tpl, lang⟩ := by
  have hmap : (db.journals.map (fun x =>
        if x.id == jid then { x with template_id := tpl, language_code := lang, updated_at := now }
        else x)).find? (fun x => x.id == jid)
      = some { j with template_id := tpl, language_code := lang, updated_at := now } := by
    rw [find?_map_update Journal.id jid
      (fun x => { x with template_id := tpl, language_code := lang, updated_at := now })
      (fun x => rfl) db.journals, hj]
    rfl
  cases d <;> exact ⟨hmap, rfl⟩

/-- C1 counterexample: resummarizing the processed fixture journal leaves its
status "processed" — the operation does not set the status back to
"processing" as the claim states. -/
theorem C1_counterexample_status_not_reset :
    ((resummarize exDB 9 1 (some 7) (some ("da")) true DispatchResult.ok).db.journals.find?
        (fun x => x.id == 1)).map Journal.status = some ("processed") ∧
    ((resummarize exDB 9 1 (some 7) (some ("da")) true DispatchResult.ok).db.journals.find?
        (fun x => x.id == 1)).map Journal.status ≠ some ("processing") := by
  constructor <;> decide

/-- Witness for C1 at the fixture store. -/
theorem C1_witness :
    (resummarize exDB 9 1 (some 7) (some ("da")) true DispatchResult.ok).db.journals.find?
        (fun x => x.id == 1)
      = some { exJournal with template_id := some 7, language_code := some ("da"), updated_at := 9 } ∧
    (resummarize exDB 9 1 (some 7) (some ("da")) true DispatchResult.ok).request
      = some ⟨1, some 7, some ("da")⟩ :=
  C1_resummarize_amended exDB 9 1 (some 7) (some ("da")) DispatchResult.ok exJournal (by decide)

/-- C2: accept fails with the InviteInvalid message and changes nothing when no
invite carries the token in pending, unexpired state; otherwise it upserts the
membership — a repeat acceptance by an existing member leaves the member rows
untouched — and marks the invite accepted with accepted_by set to the actor. -/
theorem C2_accept_invite (db : DB) (now uid : Nat) (tok : String)
    (hnd : (db.invites.map Invite.id).Nodup) :
    (findAcceptableInvite db now tok = none →
        acceptInvite db now uid tok = (db, some ("Invite is invalid or expired"))) ∧
    (∀ i, findAcceptableInvite db now tok = some i →
        (acceptInvite db now uid tok).2 = none ∧
        (acceptInvite db now uid tok).1.members = upsertMember db.members i.workspace_id uid ∧
        isWorkspaceMember (acceptInvite db now uid tok).1 uid i.workspace_id = true ∧
        (isWorkspaceMember db uid i.workspace_id = true →
            (acceptInvite db now uid tok).1.members = db.members) ∧
        (acceptInvite db now uid tok).1.invites.find? (fun x => x.id == i.id)
          = some { i with status := "accepted", accepted_by := some uid }) := by
  constructor
  · intro h
    unfold acceptInvite
    rw [h]
  · intro i hi
    obtain ⟨h1, h2, h3, h4⟩ := acceptInvite_success db now uid tok i hi hnd
    refine ⟨h1, h2, h3, ?_, h4⟩
    intro hmem
    unfold isWorkspaceMember at hmem
    rw [h2]
    unfold upsertMember
    rw [if_pos hmem]

/-- Witness for C2: account 30 accepts the pending fixture invite. -/
theorem C2_witness :
    (acceptInvite exDB 0 30 "tok6").2 = none ∧
    isWorkspaceMember (acceptInvite exDB 0 30 "tok6").1 30 1 = true ∧
    (acceptInvite exDB 0 30 "tok6").1.invites.find? (fun x => x.id == 6)
      = some { exInvitePending with status := "accepted", accepted_by := some 30 } := by
  obtain ⟨-, hsucc⟩ := C2_accept_invite exDB 0 30 "tok6" (by decide)
  obtain ⟨h1, -, h3, -, h5⟩ := hsucc exInvitePending (by decide)
  exact ⟨h1, h3, h5⟩

/-- C3: the claim says revoke must fail with PermissionDenied for an actor who
is neither a core member nor the invite's accepted_by. On pending invite 6,
whose accepted_by is null, outsider account 99 gets no error: the SQL NULL
comparison makes can_manage NULL, the `if not can_manage` raise is skipped,
and the invite is revoked. -/
theorem C3_revoke_permission_bug :
    isCoreMember exDB 99 1 = false ∧
    exInvitePending.accepted_by = none ∧
    revokeInvite exDB 99 6
      = ({ exDB with invites := [exInviteAccepted, { exInvitePending with status := "revoked" }] },
          none) := by
  decide

/-- ownerRowOk for a workspace without an owner is vacuous. -/
theorem ownerRowOk_none (db : DB) (w : Workspace) (h : w.owner_id = none) :
    ownerRowOk db w = true := by
  unfold ownerRowOk
  rw [h]

/-- ownerRowOk for an owned workspace is the count-one condition. -/
theorem ownerRowOk_some (db : DB) (w : Workspace) (o : Nat) (h : w.owner_id = some o) :
    ownerRowOk db w = (memberRowCount db w.id o == 1) := by
  unfold ownerRowOk
  rw [h]

/-- The owner-row invariant only reads workspaces and members: it survives any
filter on members that keeps every owner row, whatever happens to invites and
journals. -/
theorem ownerRowInvariant_filter (ws : List Workspace) (ms : List WorkspaceMember)
    (iv iv' : List Invite) (jv jv' : List Journal) (keep : WorkspaceMember → Bool)
    (hkeep : ∀ w ∈ ws, ∀ o, w.owner_id = some o → ∀ m ∈ ms,
        (m.workspace_id == w.id && m.user_id == o) = true → keep m = true)
    (hinv : OwnerRowInvariant ⟨ws, ms, iv, jv⟩) :
    OwnerRowInvariant ⟨ws, ms.filter keep, iv', jv'⟩ := by
  intro w hwmem
  have h1 := hinv w hwmem
  unfold ownerRowOk memberRowCount at h1 ⊢
  cases howner : w.owner_id with
  | none => rfl
  | some o =>
      rw [howner] at h1
      show ((ms.filter keep).countP (fun m => m.workspace_id == w.id && m.user_id == o) == 1)
        = true
      rw [countP_filter_keep _ _ _ (fun m hm hp => hkeep w hwmem o howner m hm hp)]
      exact h1

/-- Bootstrap preserves and extends the owner-row invariant: the new workspace
gets exactly its owner membership row, old workspaces are untouched. -/
theorem ownerRowInvariant_handleNewUser (db : DB) (uid : Nat) (wname : String)
    (hfreshW : ∀ w ∈ db.workspaces, w.id ≠ uid)
    (hfreshM : ∀ m ∈ db.members, m.workspace_id ≠ uid)
    (hinv : OwnerRowInvariant db) :
    OwnerRowInvariant (handleNewUser db uid wname) := by
  intro w hwmem
  unfold handleNewUser at hwmem
  rw [List.mem_append] at hwmem
  rcases hwmem with hold | hnew
  · have h1 := hinv w hold
    cases howner : w.owner_id with
    | none => exact ownerRowOk_none _ w howner
    | some o =>
        rw [ownerRowOk_some db w o howner] at h1
        rw [ownerRowOk_some _ w o howner]
        show ((db.members ++ [(⟨uid, uid⟩ : WorkspaceMember)]).countP
            (fun m => m.workspace_id == w.id && m.user_id == o) == 1) = true
        rw [List.countP_append]
        have hid : ((uid : Nat) == w.id) = false := by
          simp only [beq_eq_false_iff_ne, ne_eq]
          intro he
          exact hfreshW w hold he.symm
        have hz : List.countP (fun m => m.workspace_id == w.id && m.user_id == o)
            [(⟨uid, uid⟩ : WorkspaceMember)] = 0 := by
          simp [List.countP_cons, hid]
        rw [hz, Nat.add_zero]
        exact h1
  · rw [List.mem_singleton.mp hnew]
    rw [ownerRowOk_some _ _ uid rfl]
    show ((db.members ++ [(⟨uid, uid⟩ : WorkspaceMember)]).countP
        (fun m => m.workspace_id == uid && m.user_id == uid) == 1) = true
    rw [List.countP_append]
    have hz : db.members.countP (fun m => m.workspace_id == uid && m.user_id == uid) = 0 := by
      rw [List.countP_eq_zero]
      intro m hm
      simp only [Bool.and_eq_true, beq_iff_eq, not_and]
      intro he
      exact absurd he (hfreshM m hm)
    rw [hz]
    simp [List.countP_cons]

/-- A direct membership delete cannot remove an owner row: the RLS policy keeps
every row whose user is the workspace owner, so the invariant is preserved. -/
theorem ownerRowInvariant_deleteMembership (db : DB) (uid wid target : Nat)
    (hinv : OwnerRowInvariant db) :
    OwnerRowInvariant (deleteMembershipAs db uid wid target) := by
  refine ownerRowInvariant_filter db.workspaces db.members db.invites db.invites
    db.journals db.journals _ ?_ hinv
  intro w hwmem o ho m hm hp
  simp only [Bool.and_eq_true, beq_iff_eq] at hp
  have hany : db.workspaces.any
      (fun w2 => w2.id == m.workspace_id && w2.owner_id == some m.user_id) = true := by
    rw [List.any_eq_true]
    exact ⟨w, hwmem, by simp [hp.1, hp.2, ho]⟩
  have hcd : canDeleteMemberRow db uid m = false := by
    unfold canDeleteMemberRow
    rw [hany]
    simp
  simp [hcd]

/-- revoke_invite cannot delete an owner row: the membership it deletes belongs
to accepted_by, and the guard raises whenever accepted_by equals the owner. -/
theorem ownerRowInvariant_revokeInvite (db : DB) (uid iid : Nat)
    (hwnd : (db.workspaces.map Workspace.id).Nodup)
    (hinv : OwnerRowInvariant db) :
    OwnerRowInvariant (revokeInvite db uid iid).1 := by
  unfold revokeInvite
  split
  · exact hinv
  · rename_i i hfi
    split
    · exact hinv
    · rename_i w0 hfw
      split
      · exact hinv
      · split
        · exact hinv
        · split
          · rename_i a ha
            split
            · exact hinv
            · rename_i hguard
              refine ownerRowInvariant_filter db.workspaces db.members db.invites
                (markInviteRevoked db.invites i.id) db.journals db.journals _ ?_ hinv
              intro w hwmem o ho m hm hp
              simp only [Bool.and_eq_true, beq_iff_eq] at hp
              cases hx : (m.workspace_id == i.workspace_id && m.user_id == a) with
              | false => simp [hx]
              | true =>
                  exfalso
                  simp only [Bool.and_eq_true, beq_iff_eq] at hx
                  have hw0mem : w0 ∈ db.workspaces := List.mem_of_find?_eq_some hfw
                  have hw0id : w0.id = i.workspace_id := by
                    simpa [beq_iff_eq] using List.find?_some hfw
                  have hwid : w.id = i.workspace_id := by rw [← hp.1, hx.1]
                  have hww0 : w = w0 :=
                    List.inj_on_of_nodup_map hwnd hwmem hw0mem (by rw [hwid, hw0id])
                  have hoa : o = a := by rw [← hp.2, hx.2]
                  apply hguard
                  have : w0.owner_id = some a := by rw [← hww0, ho, hoa]
                  rw [this]
                  unfold condTrue sqlEqNat
                  simp
          · exact hinv

/-- accept_invite cannot break the invariant: the upsert inserts the owner pair
only when it is absent, which the invariant rules out. -/
theorem ownerRowInvariant_acceptInvite (db : DB) (now uid : Nat) (tok : String)
    (hinv : OwnerRowInvariant db) :
    OwnerRowInvariant (acceptInvite db now uid tok).1 := by
  unfold acceptInvite
  split
  · exact hinv
  · rename_i i hfi
    intro w hwmem
    have h1 := hinv w hwmem
    unfold ownerRowOk memberRowCount at h1 ⊢
    cases howner : w.owner_id with
    | none => rfl
    | some o =>
        rw [howner] at h1
        show ((upsertMember db.members i.workspace_id uid).countP
            (fun m => m.workspace_id == w.id && m.user_id == o) == 1) = true
        unfold upsertMember
        cases hmem : db.members.any (fun m => m.workspace_id == i.workspace_id && m.user_id == uid) with
        | true =>
            rw [if_pos rfl]
            exact h1
        | false =>
            rw [if_neg (by simp)]
            rw [List.countP_append]
            cases hp : ((⟨i.workspace_id, uid⟩ : WorkspaceMember).workspace_id == w.id &&
                (⟨i.workspace_id, uid⟩ : WorkspaceMember).user_id == o) with
            | false =>
                have hz : List.countP (fun m => m.workspace_id == w.id && m.user_id == o)
                    [(⟨i.workspace_id, uid⟩ : WorkspaceMember)] = 0 := by
                  simp [List.countP_cons, hp]
                rw [hz, Nat.add_zero]
                exact h1
            | true =>
                exfalso
                simp only [Bool.and_eq_true, beq_iff_eq] at hp
                have hcount : db.members.countP
                    (fun m => m.workspace_id == w.id && m.user_id == o) = 1 := beq_iff_eq.mp h1
                have hexists : ∃ m ∈ db.members,
                    (m.workspace_id == w.id && m.user_id == o) = true := by
                  by_contra hne
                  push_neg at hne
                  have hz : db.members.countP
                      (fun m => m.workspace_id == w.id && m.user_id == o) = 0 :=
                    List.countP_eq_zero.mpr (fun m hm => by simpa using hne m hm)
                  rw [hcount] at hz
                  exact one_ne_zero hz
                obtain ⟨m, hm, hmp⟩ := hexists
                have : db.members.any
                    (fun m => m.workspace_id == i.workspace_id && m.user_id == uid) = true := by
                  rw [List.any_eq_true]
                  refine ⟨m, hm, ?_⟩
                  simp only [Bool.and_eq_true, beq_iff_eq] at hmp ⊢
                  exact ⟨by rw [hmp.1, ← hp.1], by rw [hmp.2, hp.2]⟩
                rw [hmem] at this
                cases this

/-- C4: the owner-membership invariant — every workspace with an owner has
exactly one membership row pairing it with that owner — is established by the
bootstrap (handle_new_user) for the fresh workspace and preserved by every
membership-deleting operation: a direct RLS-guarded membership delete (which
also blocks the owner's self-removal), revoke_invite, and accept_invite. -/
theorem C4_owner_membership_invariant (db : DB)
    (hwnd : (db.workspaces.map Workspace.id).Nodup) :
    (∀ uid wname, (∀ w ∈ db.workspaces, w.id ≠ uid) → (∀ m ∈ db.members, m.workspace_id ≠ uid) →
        OwnerRowInvariant db → OwnerRowInvariant (handleNewUser db uid wname)) ∧
    (∀ uid wid target, OwnerRowInvariant db →
        OwnerRowInvariant (deleteMembershipAs db uid wid target)) ∧
    (∀ uid iid, OwnerRowInvariant db → OwnerRowInvariant (revokeInvite db uid iid).1) ∧
    (∀ now uid tok, OwnerRowInvariant db → OwnerRowInvariant (acceptInvite db now uid tok).1) :=
  ⟨fun uid wname h1 h2 h3 => ownerRowInvariant_handleNewUser db uid wname h1 h2 h3,
   fun uid wid target h => ownerRowInvariant_deleteMembership db uid wid target h,
   fun uid iid h => ownerRowInvariant_revokeInvite db uid iid hwnd h,
   fun now uid tok h => ownerRowInvariant_acceptInvite db now uid tok h⟩

/-- Witness for C4 on the fixture store: bootstrap of account 3, deletion of
member 20 by owner 10, owner revocation of accepted invite 5, and acceptance
of pending invite 6 all preserve the owner-membership invariant. -/
theorem C4_witness :
    OwnerRowInvariant (handleNewUser exDB 3 "n") ∧
    OwnerRowInvariant (deleteMembershipAs exDB 10 1 20) ∧
    OwnerRowInvariant (revokeInvite exDB 10 5).1 ∧
    OwnerRowInvariant (acceptInvite exDB 0 30 "tok6").1 := by
  obtain ⟨hb, hd, hr, ha⟩ := C4_owner_membership_invariant exDB (by decide)
  exact ⟨hb 3 "n" (by decide) (by decide) (by decide), hd 10 1 20 (by decide),
    hr 10 5 (by decide), ha 0 30 "tok6" (by decide)⟩

/-- C5: when the journal insert succeeds and the pipeline dispatch then fails,
the caller receives an error, yet the inserted row stays stored with status
"processing", and a later resummarize re-dispatches that journal id without
error. -/
theorem C5_dispatch_failure_keeps_row (db : DB) (p : SaveParams) (now now2 : Nat)
    (d : DispatchResult) (hd : d ≠ DispatchResult.ok)
    (hfresh : ∀ j ∈ db.journals, (j.id == p.journalId) = false) :
    (saveRecording db ⟨true, true, d⟩ p now).errorMsg.isSome = true ∧
    (saveRecording db ⟨true, true, d⟩ p now).db.journals.find? (fun j => j.id == p.journalId)
      = some (newJournalRow p now) ∧
    (newJournalRow p now).status = "processing" ∧
    (resummarize (saveRecording db ⟨true, true, d⟩ p now).db now2 p.journalId p.templateId
        p.languageCode true DispatchResult.ok).errorMsg = none ∧
    (resummarize (saveRecording db ⟨true, true, d⟩ p now).db now2 p.journalId p.templateId
        p.languageCode true DispatchResult.ok).request
      = some ⟨p.journalId, p.templateId, p.languageCode⟩ := by
  have hdbeq : (saveRecording db ⟨true, true, d⟩ p now).db
      = { db with journals := db.journals ++ [newJournalRow p now] } := by
    cases d with
    | ok => exact absurd rfl hd
    | non2xx s => rfl
    | networkError s => rfl
  have herr : (saveRecording db ⟨true, true, d⟩ p now).errorMsg.isSome = true := by
    cases d with
    | ok => exact absurd rfl hd
    | non2xx s => rfl
    | networkError s => rfl
  refine ⟨herr, ?_, rfl, rfl, rfl⟩
  rw [hdbeq]
  show (db.journals ++ [newJournalRow p now]).find? (fun j => j.id == p.journalId) = _
  rw [find?_append_right _ _ _ hfresh]
  exact List.find?_cons_of_pos _ (by simp [newJournalRow])

/-- Witness for C5: a network error after inserting journal 2. -/
theorem C5_witness :
    (saveRecording exDB ⟨true, true, DispatchResult.networkError ("boom")⟩ exSaveParams 4).errorMsg.isSome
      = true ∧
    (saveRecording exDB ⟨true, true, DispatchResult.networkError ("boom")⟩ exSaveParams 4).db.journals.find?
        (fun j => j.id == 2) = some (newJournalRow exSaveParams 4) ∧
    (newJournalRow exSaveParams 4).status = "processing" ∧
    (resummarize (saveRecording exDB ⟨true, true, DispatchResult.networkError ("boom")⟩ exSaveParams 4).db
        6 2 (some 2) (some ("en")) true DispatchResult.ok).errorMsg = none ∧
    (resummarize (saveRecording exDB ⟨true, true, DispatchResult.networkError ("boom")⟩ exSaveParams 4).db
        6 2 (some 2) (some ("en")) true DispatchResult.ok).request = some ⟨2, some 2, some ("en")⟩ :=
  C5_dispatch_failure_keeps_row exDB exSaveParams 4 6 (DispatchResult.networkError ("boom"))
    (by decide) (by decide)

/-- C6: the FOR UPDATE lock serializes the two acceptances, so the model runs
them in sequence: the first caller succeeds and exactly one membership row is
appended; the second caller finds the token no longer pending, fails with the
InviteInvalid message, and changes nothing. -/
theorem C6_concurrent_accept (db : DB) (now1 now2 u1 u2 : Nat) (tok : String) (i : Invite)
    (h1 : findAcceptableInvite db now1 tok = some i)
    (htok : ∀ j ∈ db.invites, j.token = tok → j.id = i.id)
    (hnotmem : isWorkspaceMember db u1 i.workspace_id = false) :
    (acceptInvite db now1 u1 tok).2 = none ∧
    (acceptInvite db now1 u1 tok).1.members = db.members ++ [⟨i.workspace_id, u1⟩] ∧
    acceptInvite (acceptInvite db now1 u1 tok).1 now2 u2 tok
      = ((acceptInvite db now1 u1 tok).1, some ("Invite is invalid or expired")) := by
  unfold isWorkspaceMember at hnotmem
  have hfst : acceptInvite db now1 u1 tok
      = ({ db with members := upsertMember db.members i.workspace_id u1,
                   invites := markInviteAccepted db.invites i.id u1 }, none) := by
    unfold acceptInvite
    rw [h1]
  have hup : upsertMember db.members i.workspace_id u1 = db.members ++ [⟨i.workspace_id, u1⟩] := by
    unfold upsertMember
    rw [if_neg (by simp [hnotmem])]
  have hnone : findAcceptableInvite (acceptInvite db now1 u1 tok).1 now2 tok = none := by
    rw [hfst]
    unfold findAcceptableInvite
    rw [List.find?_eq_none]
    intro x hx
    unfold markInviteAccepted at hx
    obtain ⟨j, hj, hfx⟩ := List.mem_map.mp hx
    by_cases hid : j.id = i.id
    · rw [if_pos (by simp [hid])] at hfx
      intro hacc
      rw [← hfx] at hacc
      unfold inviteAcceptable at hacc
      simp only [Bool.and_eq_true, beq_iff_eq] at hacc
      exact absurd hacc.1.2 (by decide)
    · rw [if_neg (by simp [hid])] at hfx
      intro hacc
      rw [← hfx] at hacc
      unfold inviteAcceptable at hacc
      simp only [Bool.and_eq_true, beq_iff_eq] at hacc
      exact hid (htok j hj hacc.1.1)
  refine ⟨by rw [hfst], by rw [hfst, hup], ?_⟩
  exact acceptInvite_fail _ now2 u2 tok hnone

/-- Witness for C6: accounts 30 and 31 accept the pending fixture token in turn. -/
theorem C6_witness :
    (acceptInvite exDB 0 30 "tok6").2 = none ∧
    (acceptInvite exDB 0 30 "tok6").1.members = exDB.members ++ [⟨1, 30⟩] ∧
    acceptInvite (acceptInvite exDB 0 30 "tok6").1 1 31 "tok6"
      = ((acceptInvite exDB 0 30 "tok6").1, some ("Invite is invalid or expired")) :=
  C6_concurrent_accept exDB 0 1 30 31 "tok6" exInvitePending (by decide) (by decide) (by decide)

/-- C7 counterexample: "draft" satisfies the journals status check constraint of
migration 0001 — it is the column default — but is not one of processing,
processed, error; and "processing", the status the app inserts, fails that same
constraint. The claimed three-status invariant does not hold of the schema. -/
theorem C7_counterexample_draft_storable :
    journalStatusCheck0001 journalDefaultStatus = true ∧
    specJournalStatusOk journalDefaultStatus = false ∧
    journalStatusCheck0001 ("processing") = false := by
  decide

/-- C7 (amended): the save-recording flow inserts journal rows directly with
status "processing" (no draft is persisted by that path), but the schema does
not enforce the three-status invariant: the 0001 check constraint admits the
default "draft" and rejects "processing". -/
theorem C7_journal_status_amended :
    (∀ p now, (newJournalRow p now).status = "processing") ∧
    journalStatusCheck0001 journalDefaultStatus = true ∧
    specJournalStatusOk journalDefaultStatus = false ∧
    journalStatusCheck0001 ("processing") = false :=
  ⟨fun p now => rfl, by decide, by decide, by decide⟩

/-- C8: once the journal row deletion succeeds, the handler reports success and
the row is gone for every webhook outcome — a cleanup failure is only logged —
and the delete_journal_audio trigger returns OLD on every path, so a storage
failure never blocks the row deletion. -/
theorem C8_delete_best_effort (db : DB) (jid : Nat) (ap : Option String)
    (w : DispatchResult) (apath : Option String) (sOk : Bool) :
    (handleDeleteJournal db jid true ap w).errorMsg = none ∧
    (handleDeleteJournal db jid true ap w).db = deleteJournalRow db jid ∧
    (handleDeleteJournal db jid true ap w).db.journals.any (fun j => j.id == jid) = false ∧
    (deleteJournalAudioTrigger apath sOk).1 = true := by
  have htrig : (deleteJournalAudioTrigger apath sOk).1 = true := by
    simp only [deleteJournalAudioTrigger, apply_ite Prod.fst, ite_self]
  have hout : (handleDeleteJournal db jid true ap w).errorMsg = none ∧
      (handleDeleteJournal db jid true ap w).db = deleteJournalRow db jid := by
    cases ap with
    | none => exact ⟨rfl, rfl⟩
    | some s => cases w <;> exact ⟨rfl, rfl⟩
  refine ⟨hout.1, hout.2, ?_, htrig⟩
  rw [hout.2]
  exact any_filter_not _ db.journals

/-- C9 counterexample: account 99 is not a core member of workspace 1 and the
invites RLS policy denies it every direct operation; yet
get_pending_invites_for_user — which is none of accept, decline or revoke —
returns pending invite 6, token included, to this caller because the JWT email
matches. A non-core read path on invites therefore exists. -/
theorem C9_counterexample_noncore_read_path :
    isCoreMember exDB 99 1 = false ∧
    invitesPolicyAllows exDB 99 SqlOp.select exInvitePending = false ∧
    getPendingInvitesForUser exDB 0 99 "c@example.com" = [⟨6, 1, "pending", some ("tok6")⟩] := by
  decide

/-- C9 (amended): every direct read, create, update or delete of an invite row
is allowed exactly for core members of its workspace; the one further read
path, get_pending_invites_for_user, only returns invites that are pending,
unexpired and addressed to the caller's own email (token included) or that the
caller personally accepted (token withheld). -/
theorem C9_invites_access_amended (db : DB) (uid now : Nat) (jwtEmail : String) :
    (∀ op : SqlOp, ∀ i : Invite,
        invitesPolicyAllows db uid op i = isCoreMember db uid i.workspace_id) ∧
    (∀ r ∈ getPendingInvitesForUser db now uid jwtEmail,
        ∃ i ∈ db.invites, r.id = i.id ∧ r.workspace_id = i.workspace_id ∧ r.status = i.status ∧
          ((i.status = "pending" ∧ lowerStr i.email = lowerStr jwtEmail ∧
              (∀ t, i.expires_at = some t → now < t) ∧ r.token = some i.token) ∨
           (i.status = "accepted" ∧ i.accepted_by = some uid ∧ r.token = none))) := by
  refine ⟨fun op i => rfl, ?_⟩
  intro r hr
  unfold getPendingInvitesForUser at hr
  obtain ⟨i, hi, hfi⟩ := List.mem_filterMap.mp hr
  refine ⟨i, hi, ?_⟩
  split at hfi
  · cases hfi
  · split at hfi
    · rename_i hc
      injection hfi with hfi
      subst hfi
      refine ⟨rfl, rfl, rfl, ?_⟩
      simp only [Bool.or_eq_true] at hc
      rcases hc with hpend | hacc
      · simp only [Bool.and_eq_true, beq_iff_eq] at hpend
        obtain ⟨⟨hstat, hexp⟩, hmail⟩ := hpend
        refine Or.inl ⟨hstat, hmail, ?_, ?_⟩
        · intro t ht
          rw [ht] at hexp
          exact of_decide_eq_true hexp
        · show (if i.status == "pending" then some i.token else none) = some i.token
          rw [if_pos (by simp [hstat])]
      · simp only [Bool.and_eq_true, beq_iff_eq] at hacc
        refine Or.inr ⟨hacc.1, hacc.2, ?_⟩
        show (if i.status == "pending" then some i.token else none) = none
        rw [if_neg (by simp [hacc.1])]
    · cases hfi

/-- C10: accept_invite never consults the caller's identity or email — any
authenticated actor presenting a pending, unexpired token becomes the member
and is recorded as accepted_by, even when the actor's email differs from the
invite's target email — whereas decline_invite rejects a caller whose JWT
email does not match the invite's email. -/
theorem C10_accept_ignores_email (db : DB) (now uid : Nat) (jwtEmail : String) (i : Invite)
    (hfind : findAcceptableInvite db now i.token = some i)
    (hnd : (db.invites.map Invite.id).Nodup)
    (hmail : lowerStr jwtEmail ≠ lowerStr i.email) :
    (acceptInvite db now uid i.token).2 = none ∧
    isWorkspaceMember (acceptInvite db now uid i.token).1 uid i.workspace_id = true ∧
    (acceptInvite db now uid i.token).1.invites.find? (fun x => x.id == i.id)
      = some { i with status := "accepted", accepted_by := some uid } ∧
    declineInvite db now jwtEmail i.id = (db, some ("Invite is invalid or expired")) := by
  obtain ⟨h1, -, h3, h4⟩ := acceptInvite_success db now uid i.token i hfind hnd
  have hmemi : i ∈ db.invites := by
    unfold findAcceptableInvite at hfind
    exact List.mem_of_find?_eq_some hfind
  refine ⟨h1, h3, h4, ?_⟩
  have hnone : db.invites.find? (inviteDeclinable now i.id jwtEmail) = none := by
    rw [List.find?_eq_none]
    intro j hj hdec
    unfold inviteDeclinable at hdec
    simp only [Bool.and_eq_true, beq_iff_eq] at hdec
    obtain ⟨⟨⟨hjid, -⟩, hjmail⟩, -⟩ := hdec
    have hji : j = i := List.inj_on_of_nodup_map hnd hj hmemi hjid
    rw [hji] at hjmail
    exact hmail hjmail.symm
  unfold declineInvite
  rw [hnone]

/-- Witness for C10: account 40, email not matching the invite, accepts the
pending fixture token; declining with that email fails. -/
theorem C10_witness :
    (acceptInvite exDB 0 40 "tok6").2 = none ∧
    isWorkspaceMember (acceptInvite exDB 0 40 "tok6").1 40 1 = true ∧
    (acceptInvite exDB 0 40 "tok6").1.invites.find? (fun x => x.id == 6)
      = some { exInvitePending with status := "accepted", accepted_by := some 40 } ∧
    declineInvite exDB 0 "zzz@other.com" 6 = (exDB, some ("Invite is invalid or expired")) :=
  C10_accept_ignores_email exDB 0 40 "zzz@other.com" exInvitePending (by decide) (by decide)
    (by decide)

end JournalVet



